import Mathlib

/-!
Shallow embedding of `src/yearly_tenders_report.py`.

The script reads, per location, a journal CSV (`jnl.csv`), a store-metadata
CSV (`str.csv`) and an ini blob (`spirits.ini`) from an object store, filters
journal rows to a trailing 12-calendar-month window, detects adjacent
`LINE == "950"` / `LINE == "980"` row pairs as tender events, classifies them
as sales or reversals by the sign of PRICE, groups by (month, tender type),
and appends report rows to a global accumulator that is written once.

Modelling conventions:
- The CSV parser and `pd.to_numeric` / `pd.to_datetime` coercions are external
  primitives (out of scope per the design); a `JournalRow` carries their
  results: `PRICE : Option ℚ` (`none` = NaN before `fillna(0)`) and
  `DATE : Option Date` (`none` = NaT).
- Floats are modelled as rationals; only sign, absolute value and addition of
  prices occur, which floats and rationals agree on for the stated claims.
- The object store is modelled by per-location fetch results (`Except`), the
  outer per-location `try/except` by matching on the resulting `Except`.
- `groupby` emits one row per distinct (MONTH, DESCRIPT_next) key; pandas
  emits groups in sorted key order, which no proved property depends on, so
  keys are modelled in first-occurrence order via `List.dedup`.
-/

/-- A calendar date, as produced by `pd.to_datetime(...).dt.date`. -/
structure Date where
  year : Int
  month : Nat
  day : Nat
deriving DecidableEq

/-- A date is valid when its month is 1..12 and its day fits the month. -/
def isLeap (y : Int) : Bool :=
  (y % 4 == 0 && y % 100 != 0) || (y % 400 == 0)

/-- Number of days in a month (Gregorian calendar, as Python `datetime`). -/
def daysInMonth (y : Int) (m : Nat) : Nat :=
  if m == 2 then (if isLeap y then 29 else 28)
  else if m == 4 || m == 6 || m == 9 || m == 11 then 30
  else 31

def ValidDate (d : Date) : Prop :=
  1 ≤ d.month ∧ d.month ≤ 12 ∧ 1 ≤ d.day ∧ d.day ≤ daysInMonth d.year d.month

instance (d : Date) : Decidable (ValidDate d) := by
  unfold ValidDate; infer_instance

/-- Chronological order on calendar dates (as Python `date` comparison). -/
def dateLeb (a b : Date) : Bool :=
  if a.year < b.year then true
  else if b.year < a.year then false
  else if a.month < b.month then true
  else if b.month < a.month then false
  else decide (a.day ≤ b.day)

/-- `today.replace(day=1)` (line 53). -/
def firstOfMonth (d : Date) : Date := { d with day := 1 }

/-- `x - pd.DateOffset(months=12)`: twelve calendar months back keeps the
month and day and decrements the year (line 54; applied to a day-1 date). -/
def minus12Months (d : Date) : Date := { d with year := d.year - 1 }

/-- `x - timedelta(days=1)` on a calendar date. -/
def prevDay (d : Date) : Date :=
  if 1 < d.day then { d with day := d.day - 1 }
  else if 1 < d.month then
    { d with month := d.month - 1, day := daysInMonth d.year (d.month - 1) }
  else { year := d.year - 1, month := 12, day := 31 }

/-- `x + timedelta(days=1)` on a calendar date. -/
def nextDay (d : Date) : Date :=
  if d.day < daysInMonth d.year d.month then { d with day := d.day + 1 }
  else if d.month < 12 then { d with month := d.month + 1, day := 1 }
  else { year := d.year + 1, month := 1, day := 1 }

/-- `start_range = (first_day_this_month - pd.DateOffset(months=12)).date()`
(line 54). -/
def start_range (today : Date) : Date := minus12Months (firstOfMonth today)

/-- `end_range = (first_day_this_month - timedelta(days=1)).date()`
(line 55). -/
def end_range (today : Date) : Date := prevDay (firstOfMonth today)

/-- The window mask of lines 57-60: parsed date between `start_range` and
`end_range`, inclusive; a NaT date (`none`) compares `False` on both sides. -/
def inWindow (today : Date) (d : Option Date) : Bool :=
  match d with
  | none => false
  | some d => dateLeb (start_range today) d && dateLeb d (end_range today)

/-- One journal row after the loader's coercions: all columns are strings
(`dtype=str`, `fillna("")`), `PRICE` is the `pd.to_numeric(..., "coerce")`
result before `fillna(0)` and `DATE` the `pd.to_datetime(..., "coerce")`
calendar date (`none` = NaN/NaT). -/
structure JournalRow where
  LINE : String
  DESCRIPT : String
  PRICE : Option ℚ
  DATE : Option Date
deriving DecidableEq

/-- `fillna(0)` applied to the coerced PRICE (line 39). -/
def effPrice (r : JournalRow) : ℚ := r.PRICE.getD 0

/-- Zero-pad a month number to two digits, as in `to_period("M")` strings. -/
def pad2 (n : Nat) : String := if n < 10 then "0" ++ toString n else toString n

/-- `DATE_parsed.dt.to_period("M").astype(str)` (line 69): "YYYY-MM", or
"NaT" for an unparsed date. -/
def monthStr (d : Date) : String := toString d.year ++ "-" ++ pad2 d.month

def monthOf (r : JournalRow) : String :=
  match r.DATE with
  | some d => monthStr d
  | none => "NaT"

/-- A detected tender event: month of the marker (950) row, the following
(980) row's description, and the marker row's price. -/
structure TenderEvent where
  month : String
  ttype : String
  price : ℚ
deriving DecidableEq

def mkEvent (r1 r2 : JournalRow) : TenderEvent :=
  ⟨monthOf r1, r2.DESCRIPT, effPrice r1⟩

/-- Lines 62-67: `shift(-1)` pairs each row with the next one in the
(already filtered) sequence; a row is kept when `LINE == "950"`,
`LINE_next == "980"` and `DESCRIPT_next != ""`. The last row has NaN
`LINE_next`, which fails the `== "980"` test. -/
def tenderEvents : List JournalRow → List TenderEvent
  | r1 :: r2 :: rest =>
      (if r1.LINE = "950" ∧ r2.LINE = "980" ∧ r2.DESCRIPT ≠ ""
       then [mkEvent r1 r2] else []) ++ tenderEvents (r2 :: rest)
  | _ => []

/-- `is_return` (line 72). -/
def is_return (e : TenderEvent) : Bool := decide (e.price < 0)

/-- Line 74. -/
def sale_amount (e : TenderEvent) : ℚ := if e.price < 0 then 0 else e.price

/-- Line 75. -/
def sale_count (e : TenderEvent) : Nat := if e.price < 0 then 0 else 1

/-- Line 76. -/
def reversal_amount (e : TenderEvent) : ℚ := if e.price < 0 then |e.price| else 0

/-- Line 77. -/
def reversal_count (e : TenderEvent) : Nat := if e.price < 0 then 1 else 0

/-- The `groupby(["MONTH", "DESCRIPT_next"])` key. -/
def eventKey (e : TenderEvent) : String × String := (e.month, e.ttype)

/-- One aggregated output group (lines 79-88). -/
structure GroupRow where
  month : String
  ttype : String
  sale_amount : ℚ
  sale_count : Nat
  reversal_amount : ℚ
  reversal_count : Nat
deriving DecidableEq

/-- `groupby(...).agg(...)` of lines 79-88: one row per distinct
(MONTH, DESCRIPT_next) key, summing the four classified columns. -/
def groupReport (es : List TenderEvent) : List GroupRow :=
  ((es.map eventKey).dedup).map fun k =>
    let g := es.filter fun e => decide (eventKey e = k)
    { month := k.1, ttype := k.2,
      sale_amount := (g.map sale_amount).sum,
      sale_count := (g.map sale_count).sum,
      reversal_amount := (g.map reversal_amount).sum,
      reversal_count := (g.map reversal_count).sum }

/-- Lines 57-60: the window filter over the journal, order preserved. -/
def filteredRows (today : Date) (rows : List JournalRow) : List JournalRow :=
  rows.filter fun r => inWindow today r.DATE

/-- The per-location event extraction pipeline: window filter, then
adjacent-pair detection on the filtered sequence. -/
def locationEvents (today : Date) (rows : List JournalRow) : List TenderEvent :=
  tenderEvents (filteredRows today rows)

/-- The per-location aggregated report (before identity columns). -/
def locationReport (today : Date) (rows : List JournalRow) : List GroupRow :=
  groupReport (locationEvents today rows)

/-! ## Config extractor (`extract_ini_value`, lines 19-31) -/

/-- A fetch of `spirits.ini`: the blob's text, a `NoSuchKey` error (the only
exception the function catches), or any other S3 error (which propagates). -/
inductive IniFetch where
  | ok (content : String)
  | noSuchKey
  | otherError (msg : String)
deriving DecidableEq

/-- `str.splitlines()` on the newline conventions it recognizes in this data
(`\n`, `\r\n`, `\r`); no trailing empty line for a terminal newline. -/
def splitlinesAux : List Char → List Char → List String
  | [], acc => if acc.isEmpty then [] else [String.mk acc.reverse]
  | '\r' :: '\n' :: rest, acc => String.mk acc.reverse :: splitlinesAux rest []
  | '\n' :: rest, acc => String.mk acc.reverse :: splitlinesAux rest []
  | '\r' :: rest, acc => String.mk acc.reverse :: splitlinesAux rest []
  | c :: rest, acc => splitlinesAux rest (c :: acc)

def splitlines (s : String) : List String := splitlinesAux s.data []

/-- `line.split("=", 1)` guarded by `"=" in line`: `none` when the line has
no `=`, otherwise the text before the first `=` and everything after it. -/
def splitKVAux : List Char → List Char → Option (String × String)
  | [], _ => none
  | '=' :: rest, acc => some (String.mk acc.reverse, String.mk rest)
  | c :: rest, acc => splitKVAux rest (c :: acc)

def splitKV (l : String) : Option (String × String) := splitKVAux l.data []

/-- Python `str.strip()` whitespace (ASCII range). -/
def isPySpace (c : Char) : Bool :=
  c = ' ' || c = '\t' || c = '\n' || c = '\r' || c = '\x0b' || c = '\x0c'

/-- Python `str.strip()`: drop whitespace from both ends. -/
def pyStrip (s : String) : String :=
  String.mk (((s.data.dropWhile isPySpace).reverse.dropWhile isPySpace).reverse)

def lowerChar (c : Char) : Char :=
  if 'A' ≤ c ∧ c ≤ 'Z' then Char.ofNat (c.toNat + 32) else c

/-- Python `str.lower()` (ASCII letters; the keys in play are ASCII). -/
def pyLower (s : String) : String := String.mk (s.data.map lowerChar)

def quoted (s : String) : String := "\"" ++ s ++ "\""

/-- The scan loop of lines 24-28: return the first match, quoted; fall
through to the sentinel (line 31). -/
def scanIniLines (target : String) : List String → String
  | [] => quoted ("Unknown" ++ target)
  | l :: rest =>
      match splitKV l with
      | some (k, v) =>
          if pyLower (pyStrip k) = pyLower target then quoted (pyStrip v)
          else scanIniLines target rest
      | none => scanIniLines target rest

/-- `extract_ini_value` (lines 19-31): on `NoSuchKey` return the sentinel;
on any other fetch error the exception propagates to the caller. -/
def extract_ini_value (fetch : IniFetch) (target : String) : Except String String :=
  match fetch with
  | .ok content => .ok (scanIniLines target (splitlines content))
  | .noSuchKey => .ok (quoted ("Unknown" ++ target))
  | .otherError m => .error m

/-- Spec-side characterization of the scan: the trimmed value of the first
`=`-delimited line whose trimmed key equals the target case-insensitively. -/
def iniLookup (content : String) (target : String) : Option String :=
  (splitlines content).findSome? fun l =>
    (splitKV l).bind fun kv =>
      if pyLower (pyStrip kv.1) = pyLower target then some (pyStrip kv.2) else none

/-! ## Per-location processing (`process_prefix`, lines 33-111) and `main` -/

/-- One output row of the consolidated CSV (lines 95-108). -/
structure ReportRow where
  astoreid : String
  storename : String
  merchantID : String
  ccprocessor : String
  month : String
  ttype : String
  sale_amount : ℚ
  sale_count : Nat
  reversal_amount : ℚ
  reversal_count : Nat
  cardinterface : String
  currency : String
deriving DecidableEq

/-- The fetches one location's processing performs: the journal load result
(already coerced), the `str.csv` NAME lookup (`ok none` = missing NAME
column or empty table), and the three ini fetches. -/
structure LocationInput where
  jnl : Except String (List JournalRow)
  strName : Except String (Option String)
  iniMerchant : IniFetch
  iniProcessor : IniFetch
  iniCard : IniFetch

/-- Lines 41-47: best-effort store name with `"UnknownStore"` fallback; the
inner `try/except` swallows any `str.csv` failure. -/
def getStoreName (r : Except String (Option String)) : String :=
  match r with
  | .ok (some n) => n
  | _ => "UnknownStore"

/-- The body of `process_prefix` up to the append loop: every fallible step
(journal fetch, ini fetches with non-NoSuchKey errors) short-circuits to the
outer handler; all of them precede the first append (lines 94-108). -/
def processBody (today : Date) (loc : String) (inp : LocationInput) :
    Except String (List ReportRow) :=
  match inp.jnl with
  | .error e => .error e
  | .ok jnl =>
    let store_name := getStoreName inp.strName
    let report := locationReport today jnl
    match extract_ini_value inp.iniMerchant "DCMERCHANTID" with
    | .error e => .error e
    | .ok merchant_id =>
      match extract_ini_value inp.iniProcessor "DCPROCESSOR" with
      | .error e => .error e
      | .ok ccprocessor =>
        match extract_ini_value inp.iniCard "CardInterface" with
        | .error e => .error e
        | .ok cardinterface =>
          .ok (report.map fun g =>
            { astoreid := loc, storename := store_name, merchantID := merchant_id,
              ccprocessor := ccprocessor, month := g.month, ttype := g.ttype,
              sale_amount := g.sale_amount, sale_count := g.sale_count,
              reversal_amount := g.reversal_amount,
              reversal_count := g.reversal_count,
              cardinterface := cardinterface, currency := "USD" })

/-- The function at lines 33-111 of the source: append this location's
report rows to the shared accumulator; the `except` at line 110 catches any
failure, leaving the accumulator untouched. -/
def process_prefix (today : Date) (loc : String) (inp : LocationInput)
    (rows : List ReportRow) : List ReportRow :=
  match processBody today loc inp with
  | .error _ => rows
  | .ok newRows => rows ++ newRows

/-- The accumulation loop of `main` (lines 124-126) over the sorted
locations, starting from the empty `all_rows`. -/
def runAll (today : Date) (locs : List (String × LocationInput)) : List ReportRow :=
  locs.foldl (fun acc pl => process_prefix today pl.1 pl.2 acc) []

def REPORT_KEY : String := "yearly_reports/yearly_tenders_report.csv"

/-- The fixed CSV header (lines 131-144). -/
def header : List String :=
  ["Astoreid", "Storename", "MerchantID", "CCProcessor", "Month", "Type",
   "Sale_amount", "Sale_count", "Reversal_amount", "Reversal_count",
   "CardInterface", "currency"]

/-- The writes `main` performs (lines 128-148): one `put_object` at the fixed
report key, carrying the header and all accumulated rows. -/
def mainWrites (today : Date) (locs : List (String × LocationInput)) :
    List (String × List String × List ReportRow) :=
  [(REPORT_KEY, header, runAll today locs)]

/-! ## Positional characterization of pair detection -/

/-- Whether a `TenderEvent` is produced at position `i` of a row sequence:
the row at `i` has LINE "950" and the next row exists, has LINE "980" and a
non-empty DESCRIPT. -/
def eventSpecAt (rows : List JournalRow) (i : Nat) : Option TenderEvent :=
  match rows[i]?, rows[i + 1]? with
  | some r1, some r2 =>
      if r1.LINE = "950" ∧ r2.LINE = "980" ∧ r2.DESCRIPT ≠ ""
      then some (mkEvent r1 r2) else none
  | some _, none => none
  | none, _ => none

/-- Whether a row sequence contains a row with LINE "950" immediately
followed by a row with LINE "980" (the claim's notion of a marker pair,
without the DESCRIPT condition). -/
def hasAdjPair : List JournalRow → Bool
  | r1 :: r2 :: rest => (r1.LINE == "950" && r2.LINE == "980") || hasAdjPair (r2 :: rest)
  | _ => false

/-! Concrete fixtures used by witnesses and counterexamples. The reference
day is 2024-06-15, whose window is [2023-06-01, 2024-05-31]. -/

def cexToday : Date := ⟨2024, 6, 15⟩

/-- A journal with no adjacent 950/980 pair in file order: the middle row
separates the marker from the total row, but its DATE fails to parse, so
the window filter removes it and makes the two rows adjacent. -/
def cexJournal : List JournalRow :=
  [⟨"950", "", some 10, some ⟨2024, 3, 10⟩⟩,
   ⟨"123", "x", some 1, none⟩,
   ⟨"980", "Visa", some 0, some ⟨2024, 3, 10⟩⟩]

/-- A location whose journal fetch fails. -/
def failInput : LocationInput :=
  { jnl := .error "boom", strName := .ok none,
    iniMerchant := .noSuchKey, iniProcessor := .noSuchKey, iniCard := .noSuchKey }

/-- A report row accumulated from an earlier, successful location. -/
def priorRow : ReportRow :=
  { astoreid := "001", storename := "Store", merchantID := "\"1\"",
    ccprocessor := "\"V\"", month := "2024-03", ttype := "Visa",
    sale_amount := 10, sale_count := 1, reversal_amount := 0,
    reversal_count := 0, cardinterface := "\"I\"", currency := "USD" }

def wRow950a : JournalRow := ⟨"950", "", some 5, some ⟨2024, 3, 10⟩⟩

/-- A total row whose DESCRIPT is a single space: non-empty, so it passes
the `DESCRIPT_next != ""` test untrimmed. -/
def wRow980sp : JournalRow := ⟨"980", " ", some 0, some ⟨2024, 3, 10⟩⟩

def wRow950b : JournalRow := ⟨"950", "", some 7, some ⟨2024, 3, 12⟩⟩

def wRow980v : JournalRow := ⟨"980", "Visa", some 0, some ⟨2024, 3, 12⟩⟩

/-- A journal producing one whitespace-typed and one "Visa"-typed event. -/
def wJournal : List JournalRow := [wRow950a, wRow980sp, wRow950b, wRow980v]

lemma eventSpecAt_cons_succ (r : JournalRow) (rows : List JournalRow) (i : Nat) :
    eventSpecAt (r :: rows) (i + 1) = eventSpecAt rows i := by
  simp [eventSpecAt]

lemma tenderEvents_positional (rows : List JournalRow) :
    tenderEvents rows = (List.range rows.length).filterMap (eventSpecAt rows) := by
  induction rows with
  | nil => rfl
  | cons r1 rest ih =>
      cases rest with
      | nil => rfl
      | cons r2 rest2 =>
          have hshift : eventSpecAt (r1 :: r2 :: rest2) ∘ Nat.succ
              = eventSpecAt (r2 :: rest2) := by
            funext i
            exact eventSpecAt_cons_succ r1 (r2 :: rest2) i
          conv_rhs =>
            rw [List.length_cons, List.range_succ_eq_map, List.filterMap_cons,
              List.filterMap_map, hshift]
          rw [← ih, tenderEvents]
          by_cases hP : r1.LINE = "950" ∧ r2.LINE = "980" ∧ r2.DESCRIPT ≠ ""
          · simp [eventSpecAt, hP]
          · simp [eventSpecAt, hP]

/-- C1: after the journal rows are restricted to the trailing 12-month
window (order preserved by `List.filter`), a `TenderEvent` is produced at
position `i` of the filtered sequence if and only if the row at `i` has
LINE "950" and the next filtered row exists, has LINE "980" and a non-empty
DESCRIPT; the event's type is that following row's DESCRIPT and its amount
the marker row's PRICE (see `eventSpecAt` and `mkEvent`). -/
theorem adjacency_after_window (today : Date) (rows : List JournalRow) :
    locationEvents today rows =
      (List.range (filteredRows today rows).length).filterMap
        (eventSpecAt (filteredRows today rows)) :=
  tenderEvents_positional (filteredRows today rows)

/-- C3: a tender event is classified by the sign of its PRICE: a
non-negative PRICE contributes `sale_amount = PRICE`, `sale_count = 1` and
zero reversal fields; a negative PRICE contributes zero sale fields,
`reversal_amount = |PRICE|` and `reversal_count = 1`. -/
theorem sign_classification (e : TenderEvent) :
    (0 ≤ e.price →
      sale_amount e = e.price ∧ sale_count e = 1 ∧
      reversal_amount e = 0 ∧ reversal_count e = 0) ∧
    (e.price < 0 →
      sale_amount e = 0 ∧ sale_count e = 0 ∧
      reversal_amount e = |e.price| ∧ reversal_count e = 1) := by
  refine ⟨fun h => ?_, fun h => ?_⟩
  · have hn : ¬ e.price < 0 := not_lt.mpr h
    simp [sale_amount, sale_count, reversal_amount, reversal_count, hn]
  · simp [sale_amount, sale_count, reversal_amount, reversal_count, h]

/-- Witness for C3 at concrete prices 5 and -3. -/
theorem sign_classification_witness :
    ((0 : ℚ) ≤ 5 ∧ sale_amount ⟨"2024-03", "Visa", 5⟩ = 5) ∧
    ((-3 : ℚ) < 0 ∧ reversal_amount ⟨"2024-03", "Visa", -3⟩ = 3) :=
  ⟨⟨by norm_num, ((sign_classification ⟨"2024-03", "Visa", 5⟩).1 (by norm_num)).1⟩,
   ⟨by norm_num, by
      have h := ((sign_classification ⟨"2024-03", "Visa", -3⟩).2 (by norm_num)).2.2.1
      rw [h]; norm_num⟩⟩

/-- The scan loop returns the first matching line's trimmed value (quoted),
or the sentinel when no line matches. -/
lemma scanIniLines_eq_lookup (target : String) (ls : List String) :
    scanIniLines target ls =
      match ls.findSome? (fun l => (splitKV l).bind fun kv =>
          if pyLower (pyStrip kv.1) = pyLower target
          then some (pyStrip kv.2) else none) with
      | some v => quoted v
      | none => quoted ("Unknown" ++ target) := by
  induction ls with
  | nil => rfl
  | cons l rest ih =>
      rw [List.findSome?_cons]
      cases h : splitKV l with
      | none => simpa [scanIniLines, h] using ih
      | some kv =>
          obtain ⟨k, v⟩ := kv
          by_cases hc : pyLower (pyStrip k) = pyLower target
          · simp [scanIniLines, h, hc]
          · simpa [scanIniLines, h, hc] using ih

/-- C7: `extract_ini_value` returns, wrapped in literal double quotes, the
trimmed value of the first `=`-delimited line whose trimmed key equals the
target case-insensitively (`iniLookup`); when no line matches, or when the
config object does not exist (`NoSuchKey`), it returns the quoted sentinel
`Unknown<target>` without failing; on the round-trip blob it returns
`"123"` in quotes. -/
theorem extract_ini_value_spec :
    (∀ content target,
        extract_ini_value (.ok content) target =
          .ok (match iniLookup content target with
               | some v => quoted v
               | none => quoted ("Unknown" ++ target))) ∧
    (∀ target,
        extract_ini_value .noSuchKey target = .ok (quoted ("Unknown" ++ target))) ∧
    extract_ini_value (.ok "DCMERCHANTID=123\nDCPROCESSOR=VISA\n") "dcmerchantid"
      = .ok "\"123\"" := by
  refine ⟨fun content target => ?_, fun target => rfl, rfl⟩
  rw [extract_ini_value, iniLookup, scanIniLines_eq_lookup]

/-- C8: field coercion failures are never fatal: a row whose PRICE failed
numeric parsing is processed with price 0, and a row whose DATE failed to
parse is excluded from the windowed result. -/
theorem parse_failure_nonfatal :
    (∀ r : JournalRow, r.PRICE = none → effPrice r = 0) ∧
    (∀ (today : Date) (r : JournalRow) (rows : List JournalRow),
        r.DATE = none → r ∉ filteredRows today rows) := by
  constructor
  · intro r h
    simp [effPrice, h]
  · intro today r rows h hmem
    rw [filteredRows, List.mem_filter, h] at hmem
    exact absurd hmem.2 (by simp [inWindow])

/-- Witness for C8: a row with unparseable PRICE and DATE. -/
theorem parse_failure_nonfatal_witness :
    effPrice ⟨"950", "", none, none⟩ = 0 ∧
    ⟨"950", "", none, none⟩ ∉
      filteredRows ⟨2024, 6, 15⟩ [⟨"950", "", none, none⟩] :=
  ⟨parse_failure_nonfatal.1 ⟨"950", "", none, none⟩ rfl,
   parse_failure_nonfatal.2 ⟨2024, 6, 15⟩ ⟨"950", "", none, none⟩
     [⟨"950", "", none, none⟩] rfl⟩

/-! ## Window boundaries -/

lemma daysInMonth_pos (y : Int) (m : Nat) : 1 ≤ daysInMonth y m := by
  unfold daysInMonth
  split_ifs <;> omega

lemma daysInMonth_twelve (y : Int) : daysInMonth y 12 = 31 := rfl

lemma dateLeb_iff (a b : Date) :
    dateLeb a b = true ↔
      (a.year < b.year ∨ (a.year = b.year ∧
        (a.month < b.month ∨ (a.month = b.month ∧ a.day ≤ b.day)))) := by
  unfold dateLeb
  split_ifs <;> simp <;> omega

lemma dateLeb_false_iff (a b : Date) :
    dateLeb a b = false ↔
      ¬ (a.year < b.year ∨ (a.year = b.year ∧
        (a.month < b.month ∨ (a.month = b.month ∧ a.day ≤ b.day)))) := by
  rw [← dateLeb_iff]
  cases h : dateLeb a b <;> simp

lemma start_range_eq (y : Int) (m dd : Nat) :
    start_range ⟨y, m, dd⟩ = ⟨y - 1, m, 1⟩ := rfl

lemma prevDay_first_of_gt (y : Int) (m : Nat) (h : 1 < m) :
    prevDay ⟨y, m, 1⟩ = ⟨y, m - 1, daysInMonth y (m - 1)⟩ := by
  unfold prevDay
  simp [h]

lemma prevDay_first_jan (y : Int) :
    prevDay ⟨y, 1, 1⟩ = ⟨y - 1, 12, 31⟩ := by
  unfold prevDay
  simp

lemma nextDay_last_of_lt (y : Int) (k : Nat) (hk : k < 12) :
    nextDay ⟨y, k, daysInMonth y k⟩ = ⟨y, k + 1, 1⟩ := by
  unfold nextDay
  simp [hk]

lemma nextDay_last_dec (y : Int) :
    nextDay ⟨y, 12, 31⟩ = ⟨y + 1, 1, 1⟩ := by
  unfold nextDay
  rw [daysInMonth_twelve]
  simp

/-- C2: a row with a parseable DATE is kept by the window filter iff its
calendar date lies inclusively between `start_range` (the first of the
current month shifted back 12 months) and `end_range` (the day before the
first of the current month); both endpoints are included, and the day
before `start_range` and the day after `end_range` are excluded. -/
theorem window_boundaries (today : Date) (h : ValidDate today) :
    (∀ (r : JournalRow) (d : Date), r.DATE = some d →
        (inWindow today r.DATE = true ↔
          (dateLeb (start_range today) d = true ∧
           dateLeb d (end_range today) = true))) ∧
    inWindow today (some (start_range today)) = true ∧
    inWindow today (some (end_range today)) = true ∧
    inWindow today (some (prevDay (start_range today))) = false ∧
    inWindow today (some (nextDay (end_range today))) = false := by
  obtain ⟨y, m, dd⟩ := today
  have hm1 : 1 ≤ m := h.1
  have hm2 : m ≤ 12 := h.2.1
  have hS : start_range ⟨y, m, dd⟩ = ⟨y - 1, m, 1⟩ := rfl
  have hfm : firstOfMonth ⟨y, m, dd⟩ = ⟨y, m, 1⟩ := rfl
  clear h
  refine ⟨fun r d hd => by rw [hd]; simp [inWindow], ?_, ?_, ?_, ?_⟩
  all_goals rcases Nat.lt_or_ge 1 m with hm | hm
  -- for each of the four parts: first the case 1 < m, then the case m = 1
  · -- start_range in window, 1 < m
    have hE : end_range ⟨y, m, dd⟩ = ⟨y, m - 1, daysInMonth y (m - 1)⟩ := by
      rw [end_range, hfm, prevDay_first_of_gt y m hm]
    simp only [inWindow, hS, hE]
    generalize daysInMonth y (m - 1) = D
    rw [Bool.and_eq_true, dateLeb_iff, dateLeb_iff]
    dsimp only
    omega
  · -- start_range in window, m = 1
    have hm' : m = 1 := by omega
    subst hm'
    have hE : end_range ⟨y, 1, dd⟩ = ⟨y - 1, 12, 31⟩ := by
      rw [end_range, hfm, prevDay_first_jan y]
    simp only [inWindow, hS, hE]
    rw [Bool.and_eq_true, dateLeb_iff, dateLeb_iff]
    dsimp only
    omega
  · -- end_range in window, 1 < m
    have hE : end_range ⟨y, m, dd⟩ = ⟨y, m - 1, daysInMonth y (m - 1)⟩ := by
      rw [end_range, hfm, prevDay_first_of_gt y m hm]
    simp only [inWindow, hS, hE]
    generalize daysInMonth y (m - 1) = D
    rw [Bool.and_eq_true, dateLeb_iff, dateLeb_iff]
    dsimp only
    omega
  · -- end_range in window, m = 1
    have hm' : m = 1 := by omega
    subst hm'
    have hE : end_range ⟨y, 1, dd⟩ = ⟨y - 1, 12, 31⟩ := by
      rw [end_range, hfm, prevDay_first_jan y]
    simp only [inWindow, hS, hE]
    rw [Bool.and_eq_true, dateLeb_iff, dateLeb_iff]
    dsimp only
    omega
  · -- prevDay of start_range excluded, 1 < m
    have hP : prevDay ⟨y - 1, m, 1⟩ = ⟨y - 1, m - 1, daysInMonth (y - 1) (m - 1)⟩ :=
      prevDay_first_of_gt (y - 1) m hm
    have hfst : ∀ D : Nat, dateLeb ⟨y - 1, m, 1⟩ ⟨y - 1, m - 1, D⟩ = false := by
      intro D
      rw [dateLeb_false_iff]
      dsimp only
      omega
    simp only [inWindow, hS, hP, hfst, Bool.false_and]
  · -- prevDay of start_range excluded, m = 1
    have hm' : m = 1 := by omega
    subst hm'
    have hP : prevDay ⟨y - 1, 1, 1⟩ = ⟨y - 1 - 1, 12, 31⟩ := prevDay_first_jan (y - 1)
    have hfst : dateLeb ⟨y - 1, 1, 1⟩ ⟨y - 1 - 1, 12, 31⟩ = false := by
      rw [dateLeb_false_iff]
      dsimp only
      omega
    simp only [inWindow, hS, hP, hfst, Bool.false_and]
  · -- nextDay of end_range excluded, 1 < m
    have hE : end_range ⟨y, m, dd⟩ = ⟨y, m - 1, daysInMonth y (m - 1)⟩ := by
      rw [end_range, hfm, prevDay_first_of_gt y m hm]
    have hN : nextDay ⟨y, m - 1, daysInMonth y (m - 1)⟩ = ⟨y, m - 1 + 1, 1⟩ :=
      nextDay_last_of_lt y (m - 1) (by omega)
    have hsnd : ∀ D : Nat, dateLeb ⟨y, m - 1 + 1, 1⟩ ⟨y, m - 1, D⟩ = false := by
      intro D
      rw [dateLeb_false_iff]
      dsimp only
      omega
    simp only [inWindow, hE, hN, hsnd, Bool.and_false]
  · -- nextDay of end_range excluded, m = 1
    have hm' : m = 1 := by omega
    subst hm'
    have hE : end_range ⟨y, 1, dd⟩ = ⟨y - 1, 12, 31⟩ := by
      rw [end_range, hfm, prevDay_first_jan y]
    have hN : nextDay ⟨y - 1, 12, 31⟩ = ⟨y - 1 + 1, 1, 1⟩ := nextDay_last_dec (y - 1)
    have hsnd : dateLeb ⟨y - 1 + 1, 1, 1⟩ ⟨y - 1, 12, 31⟩ = false := by
      rw [dateLeb_false_iff]
      dsimp only
      omega
    simp only [inWindow, hE, hN, hsnd, Bool.and_false]

/-! ## Grouping is injective and preserves sums -/

lemma sum_map_filter_add {α M : Type*} [AddCommMonoid M] (g : α → M)
    (p : α → Bool) (l : List α) :
    ((l.filter p).map g).sum + ((l.filter fun a => !(p a)).map g).sum
      = (l.map g).sum := by
  induction l with
  | nil => simp
  | cons a l ih =>
      by_cases h : p a
      · simp only [List.filter_cons, h, Bool.not_true, if_true, if_false,
          List.map_cons, List.sum_cons, Bool.false_eq_true, if_neg,
          not_false_eq_true]
        rw [add_assoc, ih]
      · have h' : p a = false := by simp [h]
        simp only [List.filter_cons, h', Bool.not_false, if_true, if_false,
          List.map_cons, List.sum_cons, Bool.false_eq_true, if_neg,
          not_false_eq_true]
        rw [add_left_comm, ih]

lemma sum_over_groups {α κ M : Type*} [DecidableEq κ] [AddCommMonoid M]
    (f : α → κ) (g : α → M) :
    ∀ ks : List κ, ks.Nodup → ∀ l : List α, (∀ a ∈ l, f a ∈ ks) →
      (ks.map fun k => ((l.filter fun a => decide (f a = k)).map g).sum).sum
        = (l.map g).sum := by
  intro ks
  induction ks with
  | nil =>
      intro _ l hcov
      cases l with
      | nil => simp
      | cons a l => exact absurd (hcov a (by simp)) (by simp)
  | cons k ks ih =>
      intro hnd l hcov
      have hk : k ∉ ks := (List.nodup_cons.mp hnd).1
      have hnd' : ks.Nodup := (List.nodup_cons.mp hnd).2
      have hre : ∀ k' ∈ ks,
          ((l.filter fun a => decide (f a = k')).map g).sum =
            (((l.filter fun a => !(decide (f a = k))).filter
                fun a => decide (f a = k')).map g).sum := by
        intro k' hk'
        rw [List.filter_filter]
        refine congrArg _ (congrArg _ (List.filter_congr ?_))
        intro a _
        by_cases hfa : f a = k'
        · have hkk : ¬ k' = k := fun hh => hk (hh ▸ hk')
          simp [hfa, hkk]
        · simp [hfa]
      rw [List.map_cons, List.sum_cons, List.map_congr_left hre,
        ih hnd' (l.filter fun a => !(decide (f a = k))) ?_]
      · exact sum_map_filter_add g (fun a => decide (f a = k)) l
      · intro a ha
        obtain ⟨hal, hbool⟩ := List.mem_filter.mp ha
        have hne : ¬ f a = k := by simpa using hbool
        rcases List.mem_cons.mp (hcov a hal) with hh | hh
        · exact absurd hh hne
        · exact hh

lemma groupReport_keys (es : List TenderEvent) :
    (groupReport es).map (fun g => (g.month, g.ttype)) = (es.map eventKey).dedup := by
  unfold groupReport
  rw [List.map_map]
  trans List.map id ((es.map eventKey).dedup)
  · exact List.map_congr_left fun k _ => rfl
  · exact List.map_id _

lemma groupReport_sale_sum (es : List TenderEvent) :
    ((groupReport es).map GroupRow.sale_amount).sum = (es.map sale_amount).sum := by
  unfold groupReport
  rw [List.map_map]
  trans (((es.map eventKey).dedup).map fun k =>
      ((es.filter fun e => decide (eventKey e = k)).map sale_amount).sum).sum
  · exact congrArg List.sum (List.map_congr_left fun k _ => rfl)
  · exact sum_over_groups eventKey sale_amount _ (List.nodup_dedup _) es
      (fun e he => List.mem_dedup.mpr (List.mem_map_of_mem eventKey he))

lemma sum_sale_amount_eq (es : List TenderEvent) :
    (es.map sale_amount).sum
      = ((es.filter fun e => !(is_return e)).map TenderEvent.price).sum := by
  induction es with
  | nil => rfl
  | cons e es ih =>
      by_cases h : e.price < 0
      · have h1 : sale_amount e = 0 := by simp [sale_amount, h]
        have h2 : (!(is_return e)) = false := by simp [is_return, h]
        simp only [List.map_cons, List.sum_cons, List.filter_cons, h1, h2]
        simpa using ih
      · have h1 : sale_amount e = e.price := by simp [sale_amount, h]
        have h2 : (!(is_return e)) = true := by simp [is_return, h]
        simp only [List.map_cons, List.sum_cons, List.filter_cons, h1, h2]
        simpa using ih

/-- C4: grouping by (Month, TenderType) produces pairwise-distinct keys, and
summing `sale_amount` over all emitted groups of a location equals the sum
of PRICE over that location's sale-classified tender events. -/
theorem groupby_lossless (today : Date) (rows : List JournalRow) :
    ((locationReport today rows).map fun g => (g.month, g.ttype)).Nodup ∧
    ((locationReport today rows).map GroupRow.sale_amount).sum =
      (((locationEvents today rows).filter fun e => !(is_return e)).map
        TenderEvent.price).sum := by
  constructor
  · rw [locationReport, groupReport_keys]
    exact List.nodup_dedup _
  · rw [locationReport, groupReport_sale_sum, sum_sale_amount_eq]

/-! ## Per-location failure isolation -/

lemma process_prefix_error (today : Date) (loc : String) (inp : LocationInput)
    (rows : List ReportRow) (e : String)
    (h : processBody today loc inp = .error e) :
    process_prefix today loc inp rows = rows := by
  rw [ process_prefix, h]

/-- C5: any failure while processing one location is caught at the
per-location boundary: the accumulator is only ever extended (never
rewritten), a failing location leaves it exactly unchanged, and removing a
failing location from the run does not change the accumulated output of
the other locations. -/
theorem location_failure_isolation :
    (∀ (today : Date) (loc : String) (inp : LocationInput) (rows : List ReportRow),
        ∃ t : List ReportRow, process_prefix today loc inp rows = rows ++ t) ∧
    (∀ (today : Date) (loc : String) (inp : LocationInput) (rows : List ReportRow)
        (e : String), processBody today loc inp = .error e →
        process_prefix today loc inp rows = rows) ∧
    (∀ (today : Date) (locs1 locs2 : List (String × LocationInput))
        (loc : String) (inp : LocationInput) (e : String),
        processBody today loc inp = .error e →
        runAll today (locs1 ++ (loc, inp) :: locs2) = runAll today (locs1 ++ locs2)) := by
  refine ⟨?_, ?_, ?_⟩
  · intro today loc inp rows
    rw [ process_prefix]
    cases processBody today loc inp with
    | error e => exact ⟨[], (List.append_nil rows).symm⟩
    | ok newRows => exact ⟨newRows, rfl⟩
  · intro today loc inp rows e h
    exact process_prefix_error today loc inp rows e h
  · intro today locs1 locs2 loc inp e h
    rw [runAll, runAll, List.foldl_append, List.foldl_append, List.foldl_cons]
    congr 1
    exact process_prefix_error today loc inp _ e h

/-- Witness for C5: a location whose journal fetch fails leaves the
accumulator untouched. -/
theorem location_failure_isolation_witness :
    processBody cexToday "002" failInput = .error "boom" ∧
    process_prefix cexToday "002" failInput [priorRow] = [priorRow] ∧
    runAll cexToday [("002", failInput)] = runAll cexToday [] :=
  ⟨rfl,
   location_failure_isolation.2.1 cexToday "002" failInput [priorRow] "boom" rfl,
   location_failure_isolation.2.2 cexToday [] [] "002" failInput "boom" rfl⟩

/-! ## Empty report when no marker pair exists in the filtered sequence -/

lemma tenderEvents_eq_nil_of_no_pair :
    ∀ l : List JournalRow, hasAdjPair l = false → tenderEvents l = [] := by
  intro l
  induction l with
  | nil => intro _; rfl
  | cons r1 rest ih =>
      cases rest with
      | nil => intro _; rfl
      | cons r2 rest2 =>
          intro h
          rw [hasAdjPair] at h
          obtain ⟨hpair, hrest⟩ := Bool.or_eq_false_iff.mp h
          rw [tenderEvents, ih hrest, List.append_nil, if_neg]
          intro hP
          simp [hP.1, hP.2.1] at hpair

lemma processBody_empty (today : Date) (loc : String) (inp : LocationInput)
    (rows : List JournalRow) (hjnl : inp.jnl = .ok rows)
    (hrep : locationReport today rows = []) (out : List ReportRow)
    (hok : processBody today loc inp = .ok out) : out = [] := by
  rw [processBody, hjnl] at hok
  cases hM : extract_ini_value inp.iniMerchant "DCMERCHANTID" with
  | error e => rw [hM] at hok; exact absurd hok (by simp)
  | ok mId =>
      rw [hM] at hok
      cases hC : extract_ini_value inp.iniProcessor "DCPROCESSOR" with
      | error e => rw [hC] at hok; exact absurd hok (by simp)
      | ok cc =>
          rw [hC] at hok
          cases hD : extract_ini_value inp.iniCard "CardInterface" with
          | error e => rw [hD] at hok; exact absurd hok (by simp)
          | ok card =>
              rw [hD] at hok
              simp only [hrep, List.map_nil, Except.ok.injEq] at hok
              exact hok.symm

/-- C6 (amended): when the window-filtered row sequence contains no row with
LINE "950" immediately followed by a row with LINE "980", the location's
aggregated report is empty and the location appends no rows to the
accumulator. -/
theorem no_filtered_pair_empty_report (today : Date) (rows : List JournalRow)
    (h : hasAdjPair (filteredRows today rows) = false) :
    locationReport today rows = [] ∧
    ∀ (loc : String) (inp : LocationInput) (acc : List ReportRow),
      inp.jnl = .ok rows → process_prefix today loc inp acc = acc := by
  have hrep : locationReport today rows = [] := by
    rw [locationReport, locationEvents,
      tenderEvents_eq_nil_of_no_pair (filteredRows today rows) h]
    rfl
  refine ⟨hrep, ?_⟩
  intro loc inp acc hjnl
  rw [ process_prefix]
  cases hb : processBody today loc inp with
  | error e => rfl
  | ok out =>
      rw [processBody_empty today loc inp rows hjnl hrep out hb]
      exact List.append_nil acc

/-- Witness for C6 (amended): one in-window row with LINE "930" only. -/
theorem no_filtered_pair_empty_report_witness :
    hasAdjPair (filteredRows cexToday [⟨"930", "x", some 2, some ⟨2024, 3, 10⟩⟩])
        = false ∧
    locationReport cexToday [⟨"930", "x", some 2, some ⟨2024, 3, 10⟩⟩] = [] :=
  ⟨rfl,
   (no_filtered_pair_empty_report cexToday
      [⟨"930", "x", some 2, some ⟨2024, 3, 10⟩⟩] rfl).1⟩

/-- C6 (counterexample to the claim as stated): `cexJournal` contains no
adjacent 950/980 pair in original file order, yet the location's report is
non-empty, because the window filter drops the unparseable middle row and
creates the adjacency. -/
theorem no_raw_pair_counterexample :
    hasAdjPair cexJournal = false ∧
    (locationReport cexToday cexJournal).length = 1 := ⟨rfl, rfl⟩

/-! ## Single consolidated write -/

lemma runAll_all_fail (today : Date) (locs : List (String × LocationInput))
    (h : ∀ pl ∈ locs, ∃ e, processBody today pl.1 pl.2 = .error e) :
    ∀ acc : List ReportRow,
      locs.foldl (fun acc pl => process_prefix today pl.1 pl.2 acc) acc = acc := by
  induction locs with
  | nil => intro acc; rfl
  | cons pl locs ih =>
      intro acc
      rw [List.foldl_cons]
      obtain ⟨e, he⟩ := h pl (by simp)
      rw [process_prefix_error today pl.1 pl.2 acc e he]
      exact ih (fun q hq => h q (by simp [hq])) acc

/-- C9: `main` performs exactly one write, at the fixed report key, after
folding over all locations; with no locations, or with every location
failing, the written object still exists and carries exactly the fixed
header and no data rows. -/
theorem single_consolidated_write (today : Date)
    (locs : List (String × LocationInput)) :
    (mainWrites today locs).length = 1 ∧
    mainWrites today locs = [(REPORT_KEY, header, runAll today locs)] ∧
    (locs = [] → mainWrites today locs = [(REPORT_KEY, header, [])]) ∧
    ((∀ pl ∈ locs, ∃ e, processBody today pl.1 pl.2 = .error e) →
        mainWrites today locs = [(REPORT_KEY, header, [])]) := by
  refine ⟨rfl, rfl, ?_, ?_⟩
  · rintro rfl; rfl
  · intro h
    rw [mainWrites, runAll, runAll_all_fail today locs h []]

/-- Witness for C9: the empty run and the all-failing run both write the
header-only report once. -/
theorem single_consolidated_write_witness :
    mainWrites cexToday [] = [(REPORT_KEY, header, [])] ∧
    mainWrites cexToday [("002", failInput)] = [(REPORT_KEY, header, [])] :=
  ⟨(single_consolidated_write cexToday []).2.2.1 rfl,
   (single_consolidated_write cexToday [("002", failInput)]).2.2.2
     (fun pl hpl => by
        rw [List.mem_singleton] at hpl
        subst hpl
        exact ⟨"boom", rfl⟩)⟩

/-! ## DESCRIPT of the following row is not trimmed -/

/-- C10: pair detection compares DESCRIPT to the empty string without
trimming, so a whitespace-only description still yields a tender event
whose type is exactly that whitespace string; on `wJournal` the report
groups the one-space type separately from "Visa". -/
theorem descript_untrimmed :
    (∀ (r1 r2 : JournalRow) (rest : List JournalRow),
        r1.LINE = "950" → r2.LINE = "980" → r2.DESCRIPT ≠ "" →
        tenderEvents (r1 :: r2 :: rest) = mkEvent r1 r2 :: tenderEvents (r2 :: rest)) ∧
    (locationReport cexToday wJournal).map (fun g => (g.month, g.ttype))
      = [("2024-03", " "), ("2024-03", "Visa")] := by
  constructor
  · intro r1 r2 rest h1 h2 h3
    rw [tenderEvents, if_pos ⟨h1, h2, h3⟩]
    rfl
  · rfl

/-- Witness for C10: the single-space DESCRIPT produces an event typed " ". -/
theorem descript_untrimmed_witness :
    tenderEvents [wRow950a, wRow980sp]
      = mkEvent wRow950a wRow980sp :: tenderEvents [wRow980sp] :=
  descript_untrimmed.1 wRow950a wRow980sp [] rfl rfl (by decide)

/-- Witness for C2 at `today` = 2024-06-15: window [2023-06-01, 2024-05-31]. -/
theorem window_boundaries_witness :
    ValidDate ⟨2024, 6, 15⟩ ∧
    inWindow ⟨2024, 6, 15⟩ (some (start_range ⟨2024, 6, 15⟩)) = true ∧
    inWindow ⟨2024, 6, 15⟩ (some (end_range ⟨2024, 6, 15⟩)) = true ∧
    inWindow ⟨2024, 6, 15⟩ (some (prevDay (start_range ⟨2024, 6, 15⟩))) = false ∧
    inWindow ⟨2024, 6, 15⟩ (some (nextDay (end_range ⟨2024, 6, 15⟩))) = false := by
  have h := window_boundaries ⟨2024, 6, 15⟩ (by decide)
  exact ⟨by decide, h.2.1, h.2.2.1, h.2.2.2.1, h.2.2.2.2⟩
